import Mathlib

/-
Verification of the pyAutoClick screen-automation wrapper (src/main.py).

The script is a thin wrapper over pyautogui / pygetwindow: it resolves a
target window and search region, resolves an on-disk image path, polls
pyautogui.locateOnScreen for the image up to a timeout, clicks at the match
center plus offsets, and optionally verifies a second image with one retry.

Shallow embedding conventions:
  * The external world is an oracle `Env`: the window list per title, the
    screen size, an `os.path.exists` predicate, the directory holding the
    script, and a stream `locate : Nat -> LocOutcome` giving the outcome of
    the k-th call to pyautogui.locateOnScreen during the run (the screen
    changes over time, so outcomes are indexed by call count).
  * A call to locateOnScreen can return a Box, return None (older pyautogui),
    raise ImageNotFoundException, or raise some other exception; these are
    the four `LocOutcome` constructors.
  * State `St` logs every locateOnScreen call together with the image path
    and region it was given, and every synthesized mouse click; it is
    threaded explicitly, also through error returns (Python exceptions do
    not undo side effects).
  * Python exceptions are `Err` values in `Except`; the top-level
    `except Exception` of find_image_and_click is the match in the wrapper
    `find_image_and_click` over `find_image_and_click_body`.
  * Time advances only through time.sleep: the 1-second poll loop of
    _locate_image performs at most `timeout` polls for a timeout of
    `timeout` seconds, and the 0.5-second loop of verify_image_displayed at
    most `2 * timeout` polls. Timeouts are natural numbers of seconds, as in
    the script's integer defaults.
  * Python // on the nonnegative widths is Int.fdiv; os.path.join follows
    POSIX semantics; str.strip of U+202A drops that character from both ends.
-/

namespace PyAutoClick

/-- Rectangle returned by pyautogui.locateOnScreen (a pyscreeze Box). -/
structure Box where
  left : Int
  top : Int
  width : Int
  height : Int
deriving DecidableEq, Repr

/-- Window object from pygetwindow, reduced to its geometry. -/
structure Window where
  left : Int
  top : Int
  width : Int
  height : Int
deriving DecidableEq, Repr

/-- Search region (left, top, width, height) as passed to locateOnScreen. -/
abbrev Region := Int × Int × Int × Int

/-- pyautogui.center of a Box: left + width // 2, top + height // 2. -/
def center (b : Box) : Int × Int :=
  (b.left + Int.fdiv b.width 2, b.top + Int.fdiv b.height 2)

/-- Outcome of one pyautogui.locateOnScreen call. -/
inductive LocOutcome where
  | found (b : Box)
  | notFoundExc
  | noneRet
  | otherExc
deriving DecidableEq, Repr

/-- Exceptions the modelled code can raise. -/
inductive Err where
  | windowNotFound (title : String)
  | fileNotFound (path : String)
  | timeoutErr (path : String)
  | verifyFailed (path : String)
  | relocateFailed (path : String)
  | imageNotFound
  | otherError
deriving DecidableEq, Repr

/-- The external world: collaborator services outside the script. -/
structure Env where
  windows : String → List Window
  screenW : Int
  screenH : Int
  scriptDir : String
  pathExists : String → Bool
  locate : Nat → LocOutcome

/-- Observable side effects: the log of locateOnScreen calls (path and
region arguments, in order) and the log of click coordinates. -/
structure St where
  locs : List (String × Option Region)
  clicks : List (Int × Int)
deriving DecidableEq, Repr

/-- Outcome that does not yield a box and lets a poll loop continue:
raising ImageNotFoundException or returning None. -/
def isMiss : LocOutcome → Bool
  | .notFoundExc => true
  | .noneRet => true
  | _ => false

/-- Outcome that yields a box. -/
def isFound : LocOutcome → Bool
  | .found _ => true
  | _ => false

/-- Perform one locateOnScreen call: consult the oracle at the current call
index and log the call. -/
def callLocate (env : Env) (path : String) (region : Option Region) (s : St) :
    LocOutcome × St :=
  (env.locate s.locs.length, St.mk (s.locs ++ [(path, region)]) s.clicks)

/-- The U+202A (left-to-right embedding) character stripped from paths. -/
def lreChar : Char := Char.ofNat 0x202A

/-- Python str.strip with a one-character set: drop that character from both
ends of the string. -/
def stripChar (c : Char) (s : String) : String :=
  String.mk (((s.data.dropWhile (fun d => d = c)).reverse.dropWhile
    (fun d => d = c)).reverse)

/-- The string starts with a slash (is an absolute POSIX path). -/
def startsWithSlash (s : String) : Bool :=
  match s.data with
  | [] => false
  | c :: _ => c = '/'

/-- The string ends with a slash. -/
def endsWithSlash (s : String) : Bool :=
  match s.data.getLast? with
  | some c => c = '/'
  | none => false

/-- POSIX os.path.join for two components. -/
def osPathJoin (a b : String) : String :=
  if startsWithSlash b then b
  else if endsWithSlash a ∨ a = "" then a ++ b
  else a ++ "/" ++ b

/-- The window lookup succeeds: no title requested, or the title matches at
least one window. -/
def windowOkB (env : Env) : Option String → Bool
  | none => true
  | some t => !(env.windows t).isEmpty

/-- Log entries appended by n polls of the main locate loop. -/
def mainEntries (full : String) (region : Region) (n : Nat) :
    List (String × Option Region) :=
  List.replicate n (full, some region)

/-- Log entries appended by n polls of a verification loop. -/
def verifyEntries (full : String) (n : Nat) : List (String × Option Region) :=
  List.replicate n (full, none)

/-- Embedding of _get_target_window: gw.getWindowsWithTitle, raising
ValueError when no window matches; window.activate() has no modelled
effect. -/
def _get_target_window (env : Env) (window_title : String) :
    Except Err Window :=
  match env.windows window_title with
  | [] => .error (.windowNotFound window_title)
  | w :: _ => .ok w

/-- Embedding of _get_search_region: the window's rectangle, or the full
screen when no window is given. -/
def _get_search_region (env : Env) : Option Window → Region
  | some w => (w.left, w.top, w.width, w.height)
  | none => (0, 0, env.screenW, env.screenH)

/-- Embedding of _get_full_image_path: join the pics directory next to the
script with the argument stripped of U+202A on both ends. -/
def _get_full_image_path (env : Env) (image_path : String) : String :=
  osPathJoin (osPathJoin env.scriptDir "pics") (stripChar lreChar image_path)

/-- The while loop of _locate_image: each iteration calls locateOnScreen
with the region; a returned box or a returned None ends the loop with that
value, ImageNotFoundException sleeps one second and retries, any other
exception propagates. Fuel is the number of remaining 1-second slots
before the timeout. -/
def _locate_image_loop (env : Env) (full : String) (region : Region) :
    Nat → St → Except Err (Option Box) × St
  | 0, s => (.ok none, s)
  | fuel + 1, s =>
    match callLocate env full (some region) s with
    | (.found b, s') => (.ok (some b), s')
    | (.noneRet, s') => (.ok none, s')
    | (.otherExc, s') => (.error .otherError, s')
    | (.notFoundExc, s') => _locate_image_loop env full region fuel s'

/-- Embedding of _locate_image: raise FileNotFoundError when the file is
missing, else run the poll loop for `timeout` seconds. -/
def _locate_image (env : Env) (full : String) (region : Region)
    (timeout : Nat) (s : St) : Except Err (Option Box) × St :=
  if env.pathExists full then _locate_image_loop env full region timeout s
  else (.error (.fileNotFound full), s)

/-- Embedding of _handle_failure: raise RuntimeError unless fail_silently,
in which case return None. -/
def _handle_failure (full : String) (fail_silently : Bool) :
    Except Err (Option (Int × Int)) :=
  if fail_silently then .ok none else .error (.timeoutErr full)

/-- The while loop of verify_image_displayed: a box returns True, a
returned None or ImageNotFoundException sleeps half a second and retries,
any other exception propagates. Fuel is the number of remaining 0.5-second
slots before the timeout. -/
def verify_loop (env : Env) (full : String) :
    Nat → St → Except Err Bool × St
  | 0, s => (.ok false, s)
  | fuel + 1, s =>
    match callLocate env full none s with
    | (.found _, s') => (.ok true, s')
    | (.noneRet, s') => verify_loop env full fuel s'
    | (.notFoundExc, s') => verify_loop env full fuel s'
    | (.otherExc, s') => (.error .otherError, s')

/-- Embedding of verify_image_displayed: resolve the path like the main
entry point, then poll every half second until `timeout` seconds elapse,
so 2 * timeout polls. -/
def verify_image_displayed (env : Env) (image_path : String) (timeout : Nat)
    (s : St) : Except Err Bool × St :=
  verify_loop env (_get_full_image_path env image_path) (2 * timeout) s

/-- Embedding of _handle_verification: first verification with
verify_timeout; on failure one retry that re-locates the original image
with a single unguarded locateOnScreen call (no region), clicks its center
plus the same offsets, and verifies again with twice the timeout; failures
raise RuntimeError unless fail_silently; an ImageNotFoundException from the
unguarded retry call propagates. On success it returns the original (x, y). -/
def _handle_verification (env : Env) (full verify_image : String)
    (verify_timeout : Nat) (x y x_offset y_offset : Int)
    (fail_silently : Bool) (s : St) :
    Except Err (Option (Int × Int)) × St :=
  match verify_image_displayed env verify_image verify_timeout s with
  | (.error e, s') => (.error e, s')
  | (.ok true, s') => (.ok (some (x, y)), s')
  | (.ok false, s') =>
    match callLocate env full none s' with
    | (.notFoundExc, s2) => (.error .imageNotFound, s2)
    | (.otherExc, s2) => (.error .otherError, s2)
    | (.noneRet, s2) =>
      if fail_silently then (.ok none, s2)
      else (.error (.relocateFailed full), s2)
    | (.found b, s2) =>
      let s3 := St.mk s2.locs
        (s2.clicks ++ [((center b).1 + x_offset, (center b).2 + y_offset)])
      match verify_image_displayed env verify_image (verify_timeout * 2) s3 with
      | (.error e, s4) => (.error e, s4)
      | (.ok true, s4) => (.ok (some (x, y)), s4)
      | (.ok false, s4) =>
        if fail_silently then (.ok none, s4)
        else (.error (.verifyFailed verify_image), s4)

/-- The try block of find_image_and_click: window handling, path
resolution, main locate, failure handling, click, optional verification. -/
def find_image_and_click_body (env : Env) (image_path : String)
    (timeout : Nat) (x_offset y_offset : Int) (fail_silently : Bool)
    (window_title : Option String) (verify_image : Option String)
    (verify_timeout : Nat) (s : St) :
    Except Err (Option (Int × Int)) × St :=
  match (match window_title with
         | some t => Except.map some (_get_target_window env t)
         | none => .ok none) with
  | .error e => (.error e, s)
  | .ok window =>
    let region := _get_search_region env window
    let full := _get_full_image_path env image_path
    match _locate_image env full region timeout s with
    | (.error e, s') => (.error e, s')
    | (.ok none, s') => (_handle_failure full fail_silently, s')
    | (.ok (some location), s') =>
      let c := center location
      let s2 := St.mk s'.locs
        (s'.clicks ++ [(c.1 + x_offset, c.2 + y_offset)])
      match verify_image with
      | some vi =>
        _handle_verification env full vi verify_timeout c.1 c.2
          x_offset y_offset fail_silently s2
      | none => (.ok (some (c.1, c.2)), s2)

/-- The except Exception clause of find_image_and_click: an ok value
passes through, an exception re-raises when fail_silently is false and
becomes a None return when it is true. -/
def wrapResult (fail_silently : Bool) :
    Except Err (Option (Int × Int)) × St → Except Err (Option (Int × Int)) × St
  | (.ok r, s') => (.ok r, s')
  | (.error e, s') =>
    if fail_silently then (.ok none, s') else (.error e, s')

/-- Embedding of find_image_and_click: the body wrapped in
except Exception. -/
def find_image_and_click (env : Env) (image_path : String) (timeout : Nat)
    (x_offset y_offset : Int) (fail_silently : Bool)
    (window_title : Option String) (verify_image : Option String)
    (verify_timeout : Nat) (s : St) :
    Except Err (Option (Int × Int)) × St :=
  wrapResult fail_silently
    (find_image_and_click_body env image_path timeout x_offset y_offset
      fail_silently window_title verify_image verify_timeout s)

/-- The empty starting state: no calls logged, no clicks performed. -/
def st0 : St := St.mk [] []

/-- Test world where no locateOnScreen call ever finds anything: every
call raises ImageNotFoundException; all files exist; no windows match. -/
def envAllMiss : Env :=
  Env.mk (fun _ => []) 1920 1080 "/d" (fun _ => true) (fun _ => .notFoundExc)

/-- Test world where only the very first locateOnScreen call finds a box. -/
def envFound0 : Env :=
  Env.mk (fun _ => []) 1920 1080 "/d" (fun _ => true)
    (fun k => if k = 0 then .found (Box.mk 1 2 3 4) else .notFoundExc)

/-- Test world where call 1 finds a box and the others raise. -/
def envFound1 : Env :=
  Env.mk (fun _ => []) 1920 1080 "/d" (fun _ => true)
    (fun k => if k = 1 then .found (Box.mk 1 2 3 4) else .notFoundExc)

/-- Test world for the retry scenario with verify_timeout 1: call 0 finds
the main image, calls 1 and 2 (first verification) raise, call 3 (the
retry) finds a second box, calls 4 to 7 (second verification) raise. -/
def envRetry : Env :=
  Env.mk (fun _ => []) 1920 1080 "/d" (fun _ => true)
    (fun k => if k = 0 then .found (Box.mk 1 2 3 4)
      else if k = 3 then .found (Box.mk 10 20 30 40)
      else .notFoundExc)

/-- Test world like envRetry but whose call 4 (first poll of the second
verification) finds the verification image. -/
def envRetryVerified : Env :=
  Env.mk (fun _ => []) 1920 1080 "/d" (fun _ => true)
    (fun k => if k = 0 then .found (Box.mk 1 2 3 4)
      else if k = 3 then .found (Box.mk 10 20 30 40)
      else if k = 4 then .found (Box.mk 100 100 8 8)
      else .notFoundExc)

/-- Test world where the image file is missing on disk. -/
def envNoFile : Env :=
  Env.mk (fun _ => []) 1920 1080 "/d" (fun _ => false) (fun _ => .notFoundExc)

/-- Appending one entry and then n copies is appending n + 1 copies. -/
theorem entries_shift (l : List (String × Option Region))
    (e : String × Option Region) (n : Nat) :
    (l ++ [e]) ++ List.replicate n e = l ++ List.replicate (n + 1) e := by
  simp [List.append_assoc, List.replicate_succ]

/-- If the polls before j all raise ImageNotFoundException and poll j
returns a box, the locate loop returns that box after j + 1 polls. -/
theorem locate_loop_found (env : Env) (full : String) (region : Region)
    (b : Box) :
    ∀ (fuel j : Nat) (s : St), j < fuel →
    (∀ i, i < j → env.locate (s.locs.length + i) = .notFoundExc) →
    env.locate (s.locs.length + j) = .found b →
    _locate_image_loop env full region fuel s =
      (.ok (some b), St.mk (s.locs ++ mainEntries full region (j + 1)) s.clicks) := by
  intro fuel
  induction fuel with
  | zero => intro j s hj _ _; exact absurd hj (Nat.not_lt_zero j)
  | succ n ih =>
    intro j s hj hbef hfound
    match j with
    | 0 =>
      rw [Nat.add_zero] at hfound
      simp only [_locate_image_loop, callLocate, hfound, mainEntries]
      rfl
    | j' + 1 =>
      have h0 : env.locate s.locs.length = .notFoundExc := by
        have h := hbef 0 (Nat.succ_pos j')
        rwa [Nat.add_zero] at h
      simp only [_locate_image_loop, callLocate, h0]
      have hlen : (s.locs ++ [(full, some region)]).length = s.locs.length + 1 := by
        simp
      have ih' := ih j' (St.mk (s.locs ++ [(full, some region)]) s.clicks)
        (Nat.lt_of_succ_lt_succ hj) ?_ ?_
      · rw [ih']
        simp only [mainEntries]
        rw [entries_shift]
      · intro i hi
        show env.locate ((s.locs ++ [(full, some region)]).length + i) = .notFoundExc
        rw [hlen]
        have harith : s.locs.length + 1 + i = s.locs.length + (i + 1) := by omega
        rw [harith]
        exact hbef (i + 1) (Nat.succ_lt_succ hi)
      · show env.locate ((s.locs ++ [(full, some region)]).length + j') = .found b
        rw [hlen]
        have harith : s.locs.length + 1 + j' = s.locs.length + (j' + 1) := by omega
        rw [harith]
        exact hfound

/-- If every poll within the timeout raises ImageNotFoundException, the
locate loop exhausts its fuel and returns the absence marker None. -/
theorem locate_loop_all_miss (env : Env) (full : String) (region : Region) :
    ∀ (fuel : Nat) (s : St),
    (∀ i, i < fuel → env.locate (s.locs.length + i) = .notFoundExc) →
    _locate_image_loop env full region fuel s =
      (.ok none, St.mk (s.locs ++ mainEntries full region fuel) s.clicks) := by
  intro fuel
  induction fuel with
  | zero =>
    intro s _
    simp only [_locate_image_loop, mainEntries, List.replicate_zero,
      List.append_nil]
  | succ n ih =>
    intro s hmiss
    have h0 : env.locate s.locs.length = .notFoundExc := by
      have h := hmiss 0 (Nat.succ_pos n)
      rwa [Nat.add_zero] at h
    simp only [_locate_image_loop, callLocate, h0]
    have hlen : (s.locs ++ [(full, some region)]).length = s.locs.length + 1 := by
      simp
    have ih' := ih (St.mk (s.locs ++ [(full, some region)]) s.clicks) ?_
    · rw [ih']
      simp only [mainEntries]
      rw [entries_shift]
    · intro i hi
      show env.locate ((s.locs ++ [(full, some region)]).length + i) = .notFoundExc
      rw [hlen]
      have harith : s.locs.length + 1 + i = s.locs.length + (i + 1) := by omega
      rw [harith]
      exact hmiss (i + 1) (Nat.succ_lt_succ hi)

/-- If every poll within the timeout misses (raises or returns None), the
locate loop returns None, performing at most fuel polls and no clicks. -/
theorem locate_loop_miss_result (env : Env) (full : String) (region : Region) :
    ∀ (fuel : Nat) (s : St),
    (∀ i, i < fuel → isMiss (env.locate (s.locs.length + i)) = true) →
    ∃ m, m ≤ fuel ∧
      _locate_image_loop env full region fuel s =
        (.ok none, St.mk (s.locs ++ mainEntries full region m) s.clicks) := by
  intro fuel
  induction fuel with
  | zero =>
    intro s _
    exact ⟨0, Nat.le_refl 0, by
      simp only [_locate_image_loop, mainEntries, List.replicate_zero,
        List.append_nil]⟩
  | succ n ih =>
    intro s hmiss
    have h0 : isMiss (env.locate s.locs.length) = true := by
      have h := hmiss 0 (Nat.succ_pos n)
      rwa [Nat.add_zero] at h
    have hlen : (s.locs ++ [(full, some region)]).length = s.locs.length + 1 := by
      simp
    cases hc : env.locate s.locs.length with
    | found b => rw [hc] at h0; simp [isMiss] at h0
    | otherExc => rw [hc] at h0; simp [isMiss] at h0
    | noneRet =>
      refine ⟨1, Nat.succ_le_succ (Nat.zero_le n), ?_⟩
      simp only [_locate_image_loop, callLocate, hc, mainEntries]
      rfl
    | notFoundExc =>
      have ih' := ih (St.mk (s.locs ++ [(full, some region)]) s.clicks) ?_
      · obtain ⟨m, hm, heq⟩ := ih'
        refine ⟨m + 1, Nat.succ_le_succ hm, ?_⟩
        simp only [_locate_image_loop, callLocate, hc]
        rw [heq]
        simp only [mainEntries]
        rw [entries_shift]
      · intro i hi
        show isMiss (env.locate ((s.locs ++ [(full, some region)]).length + i)) = true
        rw [hlen]
        have harith : s.locs.length + 1 + i = s.locs.length + (i + 1) := by omega
        rw [harith]
        exact hmiss (i + 1) (Nat.succ_lt_succ hi)

/-- Unconditional shape of the locate loop: it performs some number of
polls, all logged with the same path and region, never clicks, and can only
fail with the catch-all error, which requires some poll to raise a foreign
exception. -/
theorem locate_loop_shape (env : Env) (full : String) (region : Region) :
    ∀ (fuel : Nat) (s : St),
    ∃ res m, m ≤ fuel ∧
      _locate_image_loop env full region fuel s =
        (res, St.mk (s.locs ++ mainEntries full region m) s.clicks) ∧
      ((∀ i, i < fuel → env.locate (s.locs.length + i) ≠ .otherExc) →
        ∃ ob, res = .ok ob) := by
  intro fuel
  induction fuel with
  | zero =>
    intro s
    refine ⟨.ok none, 0, Nat.le_refl 0, ?_, fun _ => ⟨none, rfl⟩⟩
    simp only [_locate_image_loop, mainEntries, List.replicate_zero,
      List.append_nil]
  | succ n ih =>
    intro s
    have hlen : (s.locs ++ [(full, some region)]).length = s.locs.length + 1 := by
      simp
    cases hc : env.locate s.locs.length with
    | found b =>
      refine ⟨.ok (some b), 1, Nat.succ_le_succ (Nat.zero_le n), ?_, fun _ => ⟨some b, rfl⟩⟩
      simp only [_locate_image_loop, callLocate, hc, mainEntries]
      rfl
    | noneRet =>
      refine ⟨.ok none, 1, Nat.succ_le_succ (Nat.zero_le n), ?_, fun _ => ⟨none, rfl⟩⟩
      simp only [_locate_image_loop, callLocate, hc, mainEntries]
      rfl
    | otherExc =>
      refine ⟨.error .otherError, 1, Nat.succ_le_succ (Nat.zero_le n), ?_, fun hsafe => ?_⟩
      · simp only [_locate_image_loop, callLocate, hc, mainEntries]
        rfl
      · exact absurd hc (by
          have h := hsafe 0 (Nat.succ_pos n)
          rwa [Nat.add_zero] at h)
    | notFoundExc =>
      obtain ⟨res, m, hm, heq, hsafe'⟩ :=
        ih (St.mk (s.locs ++ [(full, some region)]) s.clicks)
      refine ⟨res, m + 1, Nat.succ_le_succ hm, ?_, fun hsafe => ?_⟩
      · simp only [_locate_image_loop, callLocate, hc]
        rw [heq]
        simp only [mainEntries]
        rw [entries_shift]
      · refine hsafe' ?_
        intro i hi
        show env.locate ((s.locs ++ [(full, some region)]).length + i) ≠ .otherExc
        rw [hlen]
        have harith : s.locs.length + 1 + i = s.locs.length + (i + 1) := by omega
        rw [harith]
        exact hsafe (i + 1) (Nat.succ_lt_succ hi)

/-- If the polls before j miss and poll j returns a box, the verification
loop returns True after j + 1 polls. -/
theorem verify_loop_found (env : Env) (full : String) (b : Box) :
    ∀ (fuel j : Nat) (s : St), j < fuel →
    (∀ i, i < j → isMiss (env.locate (s.locs.length + i)) = true) →
    env.locate (s.locs.length + j) = .found b →
    verify_loop env full fuel s =
      (.ok true, St.mk (s.locs ++ verifyEntries full (j + 1)) s.clicks) := by
  intro fuel
  induction fuel with
  | zero => intro j s hj _ _; exact absurd hj (Nat.not_lt_zero j)
  | succ n ih =>
    intro j s hj hbef hfound
    have hlen : (s.locs ++ [(full, none)]).length = s.locs.length + 1 := by
      simp
    match j with
    | 0 =>
      rw [Nat.add_zero] at hfound
      simp only [verify_loop, callLocate, hfound, verifyEntries]
      rfl
    | j' + 1 =>
      have h0 : isMiss (env.locate s.locs.length) = true := by
        have h := hbef 0 (Nat.succ_pos j')
        rwa [Nat.add_zero] at h
      have hstep : ∀ s2 : St, s2 = St.mk (s.locs ++ [(full, none)]) s.clicks →
          verify_loop env full (n + 1) s = verify_loop env full n s2 := by
        intro s2 hs2
        subst hs2
        cases hc : env.locate s.locs.length with
        | found b2 => rw [hc] at h0; simp [isMiss] at h0
        | otherExc => rw [hc] at h0; simp [isMiss] at h0
        | noneRet => simp only [verify_loop, callLocate, hc]
        | notFoundExc => simp only [verify_loop, callLocate, hc]
      rw [hstep (St.mk (s.locs ++ [(full, none)]) s.clicks) rfl]
      have ih' := ih j' (St.mk (s.locs ++ [(full, none)]) s.clicks)
        (Nat.lt_of_succ_lt_succ hj) ?_ ?_
      · rw [ih']
        simp only [verifyEntries]
        rw [entries_shift]
      · intro i hi
        show isMiss (env.locate ((s.locs ++ [(full, none)]).length + i)) = true
        rw [hlen]
        have harith : s.locs.length + 1 + i = s.locs.length + (i + 1) := by omega
        rw [harith]
        exact hbef (i + 1) (Nat.succ_lt_succ hi)
      · show env.locate ((s.locs ++ [(full, none)]).length + j') = .found b
        rw [hlen]
        have harith : s.locs.length + 1 + j' = s.locs.length + (j' + 1) := by omega
        rw [harith]
        exact hfound

/-- If every poll within the timeout misses, the verification loop
exhausts its fuel and returns False. -/
theorem verify_loop_all_miss (env : Env) (full : String) :
    ∀ (fuel : Nat) (s : St),
    (∀ i, i < fuel → isMiss (env.locate (s.locs.length + i)) = true) →
    verify_loop env full fuel s =
      (.ok false, St.mk (s.locs ++ verifyEntries full fuel) s.clicks) := by
  intro fuel
  induction fuel with
  | zero =>
    intro s _
    simp only [verify_loop, verifyEntries, List.replicate_zero, List.append_nil]
  | succ n ih =>
    intro s hmiss
    have h0 : isMiss (env.locate s.locs.length) = true := by
      have h := hmiss 0 (Nat.succ_pos n)
      rwa [Nat.add_zero] at h
    have hlen : (s.locs ++ [(full, none)]).length = s.locs.length + 1 := by
      simp
    have hstep : verify_loop env full (n + 1) s =
        verify_loop env full n (St.mk (s.locs ++ [(full, none)]) s.clicks) := by
      cases hc : env.locate s.locs.length with
      | found b2 => rw [hc] at h0; simp [isMiss] at h0
      | otherExc => rw [hc] at h0; simp [isMiss] at h0
      | noneRet => simp only [verify_loop, callLocate, hc]
      | notFoundExc => simp only [verify_loop, callLocate, hc]
    rw [hstep]
    have ih' := ih (St.mk (s.locs ++ [(full, none)]) s.clicks) ?_
    · rw [ih']
      simp only [verifyEntries]
      rw [entries_shift]
    · intro i hi
      show isMiss (env.locate ((s.locs ++ [(full, none)]).length + i)) = true
      rw [hlen]
      have harith : s.locs.length + 1 + i = s.locs.length + (i + 1) := by omega
      rw [harith]
      exact hmiss (i + 1) (Nat.succ_lt_succ hi)

/-- Unconditional shape of the verification loop: some number of polls,
all logged with the same path and no region, no clicks; it can only fail
with the catch-all error, which requires a poll raising a foreign
exception. -/
theorem verify_loop_shape (env : Env) (full : String) :
    ∀ (fuel : Nat) (s : St),
    ∃ res m, m ≤ fuel ∧
      verify_loop env full fuel s =
        (res, St.mk (s.locs ++ verifyEntries full m) s.clicks) ∧
      ((∀ i, i < fuel → env.locate (s.locs.length + i) ≠ .otherExc) →
        ∃ r, res = .ok r) := by
  intro fuel
  induction fuel with
  | zero =>
    intro s
    refine ⟨.ok false, 0, Nat.le_refl 0, ?_, fun _ => ⟨false, rfl⟩⟩
    simp only [verify_loop, verifyEntries, List.replicate_zero, List.append_nil]
  | succ n ih =>
    intro s
    have hlen : (s.locs ++ [(full, none)]).length = s.locs.length + 1 := by
      simp
    have hshift : ∀ (P : LocOutcome → Prop),
        (∀ i, i < n + 1 → P (env.locate (s.locs.length + i))) →
        ∀ i, i < n → P (env.locate ((s.locs ++ [(full, none)]).length + i)) := by
      intro P hP i hi
      rw [hlen]
      have harith : s.locs.length + 1 + i = s.locs.length + (i + 1) := by omega
      rw [harith]
      exact hP (i + 1) (Nat.succ_lt_succ hi)
    cases hc : env.locate s.locs.length with
    | found b =>
      refine ⟨.ok true, 1, Nat.succ_le_succ (Nat.zero_le n), ?_, fun _ => ⟨true, rfl⟩⟩
      simp only [verify_loop, callLocate, hc, verifyEntries]
      rfl
    | otherExc =>
      refine ⟨.error .otherError, 1, Nat.succ_le_succ (Nat.zero_le n), ?_, fun hsafe => ?_⟩
      · simp only [verify_loop, callLocate, hc, verifyEntries]
        rfl
      · exact absurd hc (by
          have h := hsafe 0 (Nat.succ_pos n)
          rwa [Nat.add_zero] at h)
    | noneRet =>
      obtain ⟨res, m, hm, heq, hsafe'⟩ :=
        ih (St.mk (s.locs ++ [(full, none)]) s.clicks)
      refine ⟨res, m + 1, Nat.succ_le_succ hm, ?_, fun hsafe => ?_⟩
      · simp only [verify_loop, callLocate, hc]
        rw [heq]
        simp only [verifyEntries]
        rw [entries_shift]
      · exact hsafe' (hshift (fun o => o ≠ .otherExc) hsafe)
    | notFoundExc =>
      obtain ⟨res, m, hm, heq, hsafe'⟩ :=
        ih (St.mk (s.locs ++ [(full, none)]) s.clicks)
      refine ⟨res, m + 1, Nat.succ_le_succ hm, ?_, fun hsafe => ?_⟩
      · simp only [verify_loop, callLocate, hc]
        rw [heq]
        simp only [verifyEntries]
        rw [entries_shift]
      · exact hsafe' (hshift (fun o => o ≠ .otherExc) hsafe)

/-- Full characterisation of the verification loop when no poll raises a
foreign exception: it returns an ok boolean after at most fuel polls, the
boolean is True exactly when some poll within the fuel yields a box, and a
False answer means the fuel was fully spent. -/
theorem verify_loop_master (env : Env) (full : String) :
    ∀ (fuel : Nat) (s : St),
    (∀ i, i < fuel → env.locate (s.locs.length + i) ≠ .otherExc) →
    ∃ (r : Bool) (m : Nat), m ≤ fuel ∧
      verify_loop env full fuel s =
        (.ok r, St.mk (s.locs ++ verifyEntries full m) s.clicks) ∧
      (r = true ↔ ∃ j, j < fuel ∧ isFound (env.locate (s.locs.length + j)) = true) ∧
      (r = false → m = fuel) := by
  intro fuel
  induction fuel with
  | zero =>
    intro s _
    refine ⟨false, 0, Nat.le_refl 0, ?_, ?_, fun _ => rfl⟩
    · simp only [verify_loop, verifyEntries, List.replicate_zero, List.append_nil]
    · constructor
      · intro h; cases h
      · intro ⟨j, hj, _⟩; exact absurd hj (Nat.not_lt_zero j)
  | succ n ih =>
    intro s hsafe
    have hlen : (s.locs ++ [(full, none)]).length = s.locs.length + 1 := by
      simp
    cases hc : env.locate s.locs.length with
    | found b =>
      refine ⟨true, 1, Nat.succ_le_succ (Nat.zero_le n), ?_, ?_, by intro h; cases h⟩
      · simp only [verify_loop, callLocate, hc, verifyEntries]
        rfl
      · constructor
        · intro _
          exact ⟨0, Nat.succ_pos n, by rw [Nat.add_zero, hc]; rfl⟩
        · intro _; rfl
    | otherExc =>
      exact absurd hc (by
        have h := hsafe 0 (Nat.succ_pos n)
        rwa [Nat.add_zero] at h)
    | noneRet =>
      obtain ⟨r, m, hm, heq, hiff, hfull⟩ :=
        ih (St.mk (s.locs ++ [(full, none)]) s.clicks) (by
          intro i hi
          show env.locate ((s.locs ++ [(full, none)]).length + i) ≠ .otherExc
          rw [hlen]
          have harith : s.locs.length + 1 + i = s.locs.length + (i + 1) := by omega
          rw [harith]
          exact hsafe (i + 1) (Nat.succ_lt_succ hi))
      refine ⟨r, m + 1, Nat.succ_le_succ hm, ?_, ?_, fun hr => by rw [hfull hr]⟩
      · simp only [verify_loop, callLocate, hc]
        rw [heq]
        simp only [verifyEntries]
        rw [entries_shift]
      · rw [hiff]
        constructor
        · intro ⟨j, hj, hf⟩
          refine ⟨j + 1, Nat.succ_lt_succ hj, ?_⟩
          rw [hlen] at hf
          have harith : s.locs.length + 1 + j = s.locs.length + (j + 1) := by omega
          rwa [harith] at hf
        · intro ⟨j, hj, hf⟩
          match j with
          | 0 =>
            rw [Nat.add_zero, hc] at hf
            simp [isFound] at hf
          | j' + 1 =>
            refine ⟨j', Nat.lt_of_succ_lt_succ hj, ?_⟩
            rw [hlen]
            have harith : s.locs.length + 1 + j' = s.locs.length + (j' + 1) := by omega
            rwa [harith]
    | notFoundExc =>
      obtain ⟨r, m, hm, heq, hiff, hfull⟩ :=
        ih (St.mk (s.locs ++ [(full, none)]) s.clicks) (by
          intro i hi
          show env.locate ((s.locs ++ [(full, none)]).length + i) ≠ .otherExc
          rw [hlen]
          have harith : s.locs.length + 1 + i = s.locs.length + (i + 1) := by omega
          rw [harith]
          exact hsafe (i + 1) (Nat.succ_lt_succ hi))
      refine ⟨r, m + 1, Nat.succ_le_succ hm, ?_, ?_, fun hr => by rw [hfull hr]⟩
      · simp only [verify_loop, callLocate, hc]
        rw [heq]
        simp only [verifyEntries]
        rw [entries_shift]
      · rw [hiff]
        constructor
        · intro ⟨j, hj, hf⟩
          refine ⟨j + 1, Nat.succ_lt_succ hj, ?_⟩
          rw [hlen] at hf
          have harith : s.locs.length + 1 + j = s.locs.length + (j + 1) := by omega
          rwa [harith] at hf
        · intro ⟨j, hj, hf⟩
          match j with
          | 0 =>
            rw [Nat.add_zero, hc] at hf
            simp [isFound] at hf
          | j' + 1 =>
            refine ⟨j', Nat.lt_of_succ_lt_succ hj, ?_⟩
            rw [hlen]
            have harith : s.locs.length + 1 + j' = s.locs.length + (j' + 1) := by omega
            rwa [harith]

/-- Every entry of a verification-entry block carries the verification
path. -/
theorem mem_verify_entries (fullV : String) (m : Nat)
    (pr : String × Option Region) (h : pr ∈ verifyEntries fullV m) :
    pr.1 = fullV := by
  rw [List.eq_of_mem_replicate h]

/-- Every entry of a verify-retry-verify block carries the main path or
the verification path. -/
theorem mem_retry_entries (fullV full : String) (m1 m2 : Nat)
    (pr : String × Option Region)
    (h : pr ∈ verifyEntries fullV m1 ++ [(full, none)] ++ verifyEntries fullV m2) :
    pr.1 = full ∨ pr.1 = fullV := by
  simp only [verifyEntries, List.mem_append, List.mem_singleton] at h
  rcases h with (h | h) | h
  · right; rw [List.eq_of_mem_replicate h]
  · left; rw [h]
  · right; rw [List.eq_of_mem_replicate h]

/-- When no locateOnScreen call raises a foreign exception,
verify_image_displayed returns an ok boolean, appending only verification
polls for the resolved verification path. -/
theorem verify_image_displayed_ok (env : Env) (ip : String) (t : Nat) (s : St)
    (hsafe : ∀ k, env.locate k ≠ .otherExc) :
    ∃ (r : Bool) (m : Nat), verify_image_displayed env ip t s =
      (.ok r, St.mk (s.locs ++ verifyEntries (_get_full_image_path env ip) m)
        s.clicks) := by
  obtain ⟨res, m, _, heq, hsf⟩ :=
    verify_loop_shape env (_get_full_image_path env ip) (2 * t) s
  obtain ⟨r, hr⟩ := hsf (fun i _ => hsafe _)
  refine ⟨r, m, ?_⟩
  show verify_loop env (_get_full_image_path env ip) (2 * t) s = _
  rw [heq, hr]

/-- Any ok coordinate pair returned by _handle_verification is the original
match center (x, y), never the re-located retry center. -/
theorem handle_verification_ok_some (env : Env) (full vi : String) (vt : Nat)
    (x y xo yo : Int) (fs : Bool) (s : St) :
    ∀ p s', _handle_verification env full vi vt x y xo yo fs s =
      (.ok (some p), s') → p = (x, y) := by
  intro p s' h
  unfold _handle_verification at h
  repeat' split at h
  all_goals try simp_all
  all_goals (split at h <;> simp_all)

/-- Unconditional shape of _handle_verification: it appends some log
entries, each carrying the main path or the resolved verification path,
and some clicks. -/
theorem handle_verification_shape (env : Env) (full vi : String) (vt : Nat)
    (x y xo yo : Int) (fs : Bool) (s : St) :
    ∃ res l cl, _handle_verification env full vi vt x y xo yo fs s =
      (res, St.mk (s.locs ++ l) (s.clicks ++ cl)) ∧
      (∀ pr, pr ∈ l → pr.1 = full ∨ pr.1 = _get_full_image_path env vi) := by
  obtain ⟨res1, m1, _, heq1, _⟩ :=
    verify_loop_shape env (_get_full_image_path env vi) (2 * vt) s
  have hv1 : verify_image_displayed env vi vt s =
      (res1, St.mk (s.locs ++ verifyEntries (_get_full_image_path env vi) m1)
        s.clicks) := heq1
  unfold _handle_verification
  rw [hv1]
  cases res1 with
  | error e =>
    refine ⟨.error e, verifyEntries (_get_full_image_path env vi) m1, [], by simp, ?_⟩
    intro pr hpr
    exact Or.inr (mem_verify_entries _ _ _ hpr)
  | ok r =>
    cases r with
    | true =>
      refine ⟨.ok (some (x, y)), verifyEntries (_get_full_image_path env vi) m1, [],
        by simp, ?_⟩
      intro pr hpr
      exact Or.inr (mem_verify_entries _ _ _ hpr)
    | false =>
      dsimp only [callLocate]
      cases hc : env.locate
          (s.locs ++ verifyEntries (_get_full_image_path env vi) m1).length with
      | notFoundExc =>
        refine ⟨.error .imageNotFound,
          verifyEntries (_get_full_image_path env vi) m1 ++ [(full, none)]
            ++ verifyEntries (_get_full_image_path env vi) 0, [],
          by simp [verifyEntries], ?_⟩
        intro pr hpr
        exact mem_retry_entries _ _ _ _ _ hpr
      | otherExc =>
        refine ⟨.error .otherError,
          verifyEntries (_get_full_image_path env vi) m1 ++ [(full, none)]
            ++ verifyEntries (_get_full_image_path env vi) 0, [],
          by simp [verifyEntries], ?_⟩
        intro pr hpr
        exact mem_retry_entries _ _ _ _ _ hpr
      | noneRet =>
        refine ⟨if fs then .ok none else .error (.relocateFailed full),
          verifyEntries (_get_full_image_path env vi) m1 ++ [(full, none)]
            ++ verifyEntries (_get_full_image_path env vi) 0, [], ?_, ?_⟩
        · cases fs <;> simp [verifyEntries]
        · intro pr hpr
          exact mem_retry_entries _ _ _ _ _ hpr
      | found b =>
        obtain ⟨res2, m2, _, heq2, _⟩ :=
          verify_loop_shape env (_get_full_image_path env vi) (2 * (vt * 2))
            (St.mk ((s.locs ++ verifyEntries (_get_full_image_path env vi) m1)
                ++ [(full, none)])
              (s.clicks ++ [((center b).1 + xo, (center b).2 + yo)]))
        have hv2 : verify_image_displayed env vi (vt * 2)
            (St.mk ((s.locs ++ verifyEntries (_get_full_image_path env vi) m1)
                ++ [(full, none)])
              (s.clicks ++ [((center b).1 + xo, (center b).2 + yo)])) =
            (res2, St.mk (((s.locs ++ verifyEntries (_get_full_image_path env vi) m1)
                ++ [(full, none)])
                ++ verifyEntries (_get_full_image_path env vi) m2)
              (s.clicks ++ [((center b).1 + xo, (center b).2 + yo)])) := heq2
        dsimp only
        rw [hv2]
        have hmem : ∀ pr, pr ∈ verifyEntries (_get_full_image_path env vi) m1
            ++ [(full, none)] ++ verifyEntries (_get_full_image_path env vi) m2 →
            pr.1 = full ∨ pr.1 = _get_full_image_path env vi := by
          intro pr hpr
          exact mem_retry_entries _ _ _ _ _ hpr
        cases res2 with
        | error e =>
          exact ⟨.error e,
            verifyEntries (_get_full_image_path env vi) m1 ++ [(full, none)]
              ++ verifyEntries (_get_full_image_path env vi) m2,
            [((center b).1 + xo, (center b).2 + yo)], by simp, hmem⟩
        | ok r2 =>
          cases r2 with
          | true =>
            exact ⟨.ok (some (x, y)),
              verifyEntries (_get_full_image_path env vi) m1 ++ [(full, none)]
                ++ verifyEntries (_get_full_image_path env vi) m2,
              [((center b).1 + xo, (center b).2 + yo)], by simp, hmem⟩
          | false =>
            refine ⟨if fs then .ok none else .error (.verifyFailed vi),
              verifyEntries (_get_full_image_path env vi) m1 ++ [(full, none)]
                ++ verifyEntries (_get_full_image_path env vi) m2,
              [((center b).1 + xo, (center b).2 + yo)], ?_, hmem⟩
            cases fs <;> simp

/-- When no locateOnScreen call raises a foreign exception, the only
exceptions _handle_verification can raise are the propagated
ImageNotFoundException of the unguarded retry locate, the
cannot-re-locate RuntimeError and the second-verification RuntimeError. -/
theorem handle_verification_no_other (env : Env) (full vi : String) (vt : Nat)
    (x y xo yo : Int) (fs : Bool) (s : St)
    (hsafe : ∀ k, env.locate k ≠ .otherExc) :
    ∀ e s', _handle_verification env full vi vt x y xo yo fs s = (.error e, s') →
      e = .imageNotFound ∨ e = .relocateFailed full ∨ e = .verifyFailed vi := by
  intro e s' h
  obtain ⟨r1, m1, hv1⟩ := verify_image_displayed_ok env vi vt s hsafe
  unfold _handle_verification at h
  rw [hv1] at h
  cases r1 with
  | true => simp at h
  | false =>
    dsimp only [callLocate] at h
    cases hc : env.locate
        (s.locs ++ verifyEntries (_get_full_image_path env vi) m1).length with
    | otherExc => exact absurd hc (hsafe _)
    | notFoundExc =>
      rw [hc] at h
      simp only [Prod.mk.injEq, Except.error.injEq] at h
      exact Or.inl h.1.symm
    | noneRet =>
      rw [hc] at h
      dsimp only at h
      split at h
      · simp at h
      · simp only [Prod.mk.injEq, Except.error.injEq] at h
        exact Or.inr (Or.inl h.1.symm)
    | found b =>
      rw [hc] at h
      dsimp only at h
      obtain ⟨r2, m2, hv2⟩ := verify_image_displayed_ok env vi (vt * 2)
        (St.mk ((s.locs ++ verifyEntries (_get_full_image_path env vi) m1)
            ++ [(full, none)])
          (s.clicks ++ [((center b).1 + xo, (center b).2 + yo)])) hsafe
      rw [hv2] at h
      cases r2 with
      | true => simp at h
      | false =>
        dsimp only at h
        split at h
        · simp at h
        · simp only [Prod.mk.injEq, Except.error.injEq] at h
          exact Or.inr (Or.inr h.1.symm)

/-- The retry scenario of _handle_verification: the first verification
misses on all its 2 * verify_timeout polls, the single retry locate call
returns a box, and the second verification (with twice the timeout, hence
up to 2 * (verify_timeout * 2) polls) raises no foreign exception. Then
exactly one retry click is performed at the retry center plus the same
offsets, the call log is the first verification polls, the one retry
locate and the second verification polls, the outcome is the original
(x, y) when some second-verification poll finds the image, and otherwise
the per-flag failure after the full longer wait. -/
theorem handle_verification_retry (env : Env) (full vi : String) (vt : Nat)
    (x y xo yo : Int) (fs : Bool) (s : St) (b2 : Box)
    (hv1 : ∀ i, i < 2 * vt → isMiss (env.locate (s.locs.length + i)) = true)
    (hretry : env.locate (s.locs.length + 2 * vt) = .found b2)
    (hsafe2 : ∀ i, i < 2 * (vt * 2) →
      env.locate (s.locs.length + 2 * vt + 1 + i) ≠ .otherExc) :
    ∃ (r : Bool) (m : Nat), m ≤ 2 * (vt * 2) ∧
      _handle_verification env full vi vt x y xo yo fs s =
        ((if r then .ok (some (x, y))
          else if fs then .ok none else .error (.verifyFailed vi)),
         St.mk (s.locs ++ verifyEntries (_get_full_image_path env vi) (2 * vt)
             ++ [(full, none)]
             ++ verifyEntries (_get_full_image_path env vi) m)
           (s.clicks ++ [((center b2).1 + xo, (center b2).2 + yo)])) ∧
      (r = true ↔ ∃ j, j < 2 * (vt * 2) ∧
        isFound (env.locate (s.locs.length + 2 * vt + 1 + j)) = true) ∧
      (r = false → m = 2 * (vt * 2)) := by
  have hv1eq : verify_image_displayed env vi vt s =
      (.ok false, St.mk (s.locs ++ verifyEntries (_get_full_image_path env vi) (2 * vt))
        s.clicks) :=
    verify_loop_all_miss env (_get_full_image_path env vi) (2 * vt) s hv1
  unfold _handle_verification
  rw [hv1eq]
  dsimp only [callLocate]
  have hlen1 : (s.locs ++ verifyEntries (_get_full_image_path env vi) (2 * vt)).length =
      s.locs.length + 2 * vt := by
    simp [verifyEntries]
  rw [hlen1, hretry]
  dsimp only
  have hlen3 : ((s.locs ++ verifyEntries (_get_full_image_path env vi) (2 * vt))
      ++ [(full, none)]).length = s.locs.length + 2 * vt + 1 := by
    simp only [List.length_append, List.length_cons, List.length_nil, verifyEntries,
      List.length_replicate]
  obtain ⟨r, m, hm, heq2, hiff, hfull⟩ :=
    verify_loop_master env (_get_full_image_path env vi) (2 * (vt * 2))
      (St.mk ((s.locs ++ verifyEntries (_get_full_image_path env vi) (2 * vt))
          ++ [(full, none)])
        (s.clicks ++ [((center b2).1 + xo, (center b2).2 + yo)]))
      (by rw [hlen3]; exact hsafe2)
  have hv2eq : verify_image_displayed env vi (vt * 2)
      (St.mk ((s.locs ++ verifyEntries (_get_full_image_path env vi) (2 * vt))
          ++ [(full, none)])
        (s.clicks ++ [((center b2).1 + xo, (center b2).2 + yo)])) =
      (.ok r, St.mk (((s.locs ++ verifyEntries (_get_full_image_path env vi) (2 * vt))
          ++ [(full, none)])
          ++ verifyEntries (_get_full_image_path env vi) m)
        (s.clicks ++ [((center b2).1 + xo, (center b2).2 + yo)])) := heq2
  rw [hv2eq]
  rw [hlen3] at hiff
  refine ⟨r, m, hm, ?_, hiff, hfull⟩
  cases r <;> cases fs <;> simp

/-- The except clause passes ok results through unchanged. -/
theorem wrapResult_ok (fs : Bool) (r : Option (Int × Int)) (s' : St) :
    wrapResult fs (.ok r, s') = (.ok r, s') := rfl

/-- The except clause turns an exception into the per-flag outcome. -/
theorem wrapResult_error (fs : Bool) (e : Err) (s' : St) :
    wrapResult fs (.error e, s') = if fs then (.ok none, s') else (.error e, s') := rfl

/-- The except clause never changes the state. -/
theorem wrapResult_snd (fs : Bool) (p : Except Err (Option (Int × Int)) × St) :
    (wrapResult fs p).snd = p.snd := by
  obtain ⟨r, s'⟩ := p
  cases r with
  | ok v => rfl
  | error e => cases fs <;> rfl

/-- An ok coordinate result of the wrapped call comes from the body. -/
theorem wrapResult_ok_some (fs : Bool) (p : Except Err (Option (Int × Int)) × St)
    (q : Int × Int) (s' : St) (h : wrapResult fs p = (.ok (some q), s')) :
    p = (.ok (some q), s') := by
  obtain ⟨r, s2⟩ := p
  cases r with
  | ok v => exact h
  | error e =>
    rw [wrapResult_error] at h
    split at h <;> simp at h

/-- After the main image is found at the first successful poll j, the body
has logged j + 1 polls over some region, clicked once at the match center
plus the offsets, and continues into verification or returns the center. -/
theorem find_body_after_found (env : Env) (ip : String) (timeout : Nat)
    (xo yo : Int) (fs : Bool) (wt : Option String) (vi : Option String)
    (vt : Nat) (s : St) (j : Nat) (b : Box)
    (hw : windowOkB env wt = true)
    (hex : env.pathExists (_get_full_image_path env ip) = true)
    (hj : j < timeout)
    (hbef : ∀ i, i < j → env.locate (s.locs.length + i) = .notFoundExc)
    (hfound : env.locate (s.locs.length + j) = .found b) :
    ∃ rg, find_image_and_click_body env ip timeout xo yo fs wt vi vt s =
      (match vi with
       | some v => _handle_verification env (_get_full_image_path env ip) v vt
           (center b).1 (center b).2 xo yo fs
           (St.mk (s.locs ++ mainEntries (_get_full_image_path env ip) rg (j + 1))
             (s.clicks ++ [((center b).1 + xo, (center b).2 + yo)]))
       | none =>
         (.ok (some ((center b).1, (center b).2)),
          St.mk (s.locs ++ mainEntries (_get_full_image_path env ip) rg (j + 1))
            (s.clicks ++ [((center b).1 + xo, (center b).2 + yo)]))) := by
  cases wt with
  | none =>
    refine ⟨(0, 0, env.screenW, env.screenH), ?_⟩
    unfold find_image_and_click_body
    dsimp only [_get_search_region]
    rw [show _locate_image env (_get_full_image_path env ip)
        (0, 0, env.screenW, env.screenH) timeout s =
        _locate_image_loop env (_get_full_image_path env ip)
          (0, 0, env.screenW, env.screenH) timeout s from by
      unfold _locate_image; rw [hex]; rfl]
    rw [locate_loop_found env (_get_full_image_path env ip)
      (0, 0, env.screenW, env.screenH) b timeout j s hj hbef hfound]
    cases vi <;> rfl
  | some t =>
    cases henv : env.windows t with
    | nil =>
      rw [windowOkB, henv] at hw
      simp at hw
    | cons w ws =>
      refine ⟨(w.left, w.top, w.width, w.height), ?_⟩
      unfold find_image_and_click_body
      dsimp only [_get_target_window]
      rw [henv]
      dsimp only [Except.map, _get_search_region]
      rw [show _locate_image env (_get_full_image_path env ip)
          (w.left, w.top, w.width, w.height) timeout s =
          _locate_image_loop env (_get_full_image_path env ip)
            (w.left, w.top, w.width, w.height) timeout s from by
        unfold _locate_image; rw [hex]; rfl]
      rw [locate_loop_found env (_get_full_image_path env ip)
        (w.left, w.top, w.width, w.height) b timeout j s hj hbef hfound]
      cases vi <;> rfl

/-- When every poll within the timeout misses, the body ends in
_handle_failure with the resolved path and no clicks. -/
theorem find_body_miss (env : Env) (ip : String) (timeout : Nat)
    (xo yo : Int) (fs : Bool) (wt : Option String) (vi : Option String)
    (vt : Nat) (s : St)
    (hw : windowOkB env wt = true)
    (hex : env.pathExists (_get_full_image_path env ip) = true)
    (hmiss : ∀ i, i < timeout → isMiss (env.locate (s.locs.length + i)) = true) :
    ∃ m, m ≤ timeout ∧ ∃ rg,
      find_image_and_click_body env ip timeout xo yo fs wt vi vt s =
        (_handle_failure (_get_full_image_path env ip) fs,
         St.mk (s.locs ++ mainEntries (_get_full_image_path env ip) rg m)
           s.clicks) := by
  cases wt with
  | none =>
    obtain ⟨m, hm, heq⟩ := locate_loop_miss_result env
      (_get_full_image_path env ip) (0, 0, env.screenW, env.screenH) timeout s hmiss
    refine ⟨m, hm, (0, 0, env.screenW, env.screenH), ?_⟩
    unfold find_image_and_click_body
    dsimp only [_get_search_region]
    rw [show _locate_image env (_get_full_image_path env ip)
        (0, 0, env.screenW, env.screenH) timeout s =
        _locate_image_loop env (_get_full_image_path env ip)
          (0, 0, env.screenW, env.screenH) timeout s from by
      unfold _locate_image; rw [hex]; rfl]
    rw [heq]
  | some t =>
    cases henv : env.windows t with
    | nil =>
      rw [windowOkB, henv] at hw
      simp at hw
    | cons w ws =>
      obtain ⟨m, hm, heq⟩ := locate_loop_miss_result env
        (_get_full_image_path env ip) (w.left, w.top, w.width, w.height) timeout s hmiss
      refine ⟨m, hm, (w.left, w.top, w.width, w.height), ?_⟩
      unfold find_image_and_click_body
      dsimp only [_get_target_window]
      rw [henv]
      dsimp only [Except.map, _get_search_region]
      rw [show _locate_image env (_get_full_image_path env ip)
          (w.left, w.top, w.width, w.height) timeout s =
          _locate_image_loop env (_get_full_image_path env ip)
            (w.left, w.top, w.width, w.height) timeout s from by
        unfold _locate_image; rw [hex]; rfl]
      rw [heq]

/-- An exception escaping the wrapped call means the flag was false and
the body raised exactly that exception. -/
theorem wrapResult_error_inv (fs : Bool) (p : Except Err (Option (Int × Int)) × St)
    (e : Err) (s' : St) (h : wrapResult fs p = (.error e, s')) :
    fs = false ∧ p = (.error e, s') := by
  obtain ⟨r, s2⟩ := p
  cases r with
  | ok v => simp [wrapResult] at h
  | error e2 =>
    rw [wrapResult_error] at h
    split at h
    · simp at h
    · simp only [Prod.mk.injEq, Except.error.injEq] at h
      refine ⟨by simp_all, ?_⟩
      rw [h.1, h.2]

/-- Master shape of the body: it appends some locateOnScreen calls, each
for the resolved main path or the resolved verification path, and some
clicks; and when no call raises a foreign exception, its result is never
the catch-all error, so every exception it raises is one of the modelled
kinds. -/
theorem find_body_master (env : Env) (ip : String) (timeout : Nat)
    (xo yo : Int) (fs : Bool) (wt : Option String) (vi : Option String)
    (vt : Nat) (s : St) :
    ∃ res l cl, find_image_and_click_body env ip timeout xo yo fs wt vi vt s =
      (res, St.mk (s.locs ++ l) (s.clicks ++ cl)) ∧
      (∀ pr, pr ∈ l → pr.1 = _get_full_image_path env ip ∨
        ∃ v, vi = some v ∧ pr.1 = _get_full_image_path env v) ∧
      ((∀ k, env.locate k ≠ .otherExc) → res ≠ .error .otherError) := by
  unfold find_image_and_click_body
  have main : ∀ (rg : Region),
      ∃ res l cl,
        (match _locate_image env (_get_full_image_path env ip) rg timeout s with
         | (.error e, s') => ((.error e : Except Err (Option (Int × Int))), s')
         | (.ok none, s') => (_handle_failure (_get_full_image_path env ip) fs, s')
         | (.ok (some location), s') =>
           match vi with
           | some v =>
             _handle_verification env (_get_full_image_path env ip) v vt
               (center location).1 (center location).2 xo yo fs
               (St.mk s'.locs
                 (s'.clicks ++ [((center location).1 + xo, (center location).2 + yo)]))
           | none =>
             (.ok (some ((center location).1, (center location).2)),
              St.mk s'.locs
                (s'.clicks ++ [((center location).1 + xo, (center location).2 + yo)]))) =
          (res, St.mk (s.locs ++ l) (s.clicks ++ cl)) ∧
        (∀ pr, pr ∈ l → pr.1 = _get_full_image_path env ip ∨
          ∃ v, vi = some v ∧ pr.1 = _get_full_image_path env v) ∧
        ((∀ k, env.locate k ≠ .otherExc) → res ≠ .error .otherError) := by
    intro rg
    cases hex : env.pathExists (_get_full_image_path env ip) with
    | false =>
      refine ⟨.error (.fileNotFound (_get_full_image_path env ip)), [], [], ?_, ?_, ?_⟩
      · rw [show _locate_image env (_get_full_image_path env ip) rg timeout s =
            (.error (.fileNotFound (_get_full_image_path env ip)), s) from by
          unfold _locate_image; rw [hex]; rfl]
        simp
      · intro pr hpr; cases hpr
      · intro _ hcontra
        simp at hcontra
    | true =>
      obtain ⟨res1, m1, _, heq1, hsf1⟩ :=
        locate_loop_shape env (_get_full_image_path env ip) rg timeout s
      rw [show _locate_image env (_get_full_image_path env ip) rg timeout s =
          (res1, St.mk (s.locs ++ mainEntries (_get_full_image_path env ip) rg m1)
            s.clicks) from by
        unfold _locate_image; rw [hex]; exact heq1]
      have hmemMain : ∀ pr, pr ∈ mainEntries (_get_full_image_path env ip) rg m1 →
          pr.1 = _get_full_image_path env ip ∨
          ∃ v, vi = some v ∧ pr.1 = _get_full_image_path env v := by
        intro pr hpr
        exact Or.inl (by rw [List.eq_of_mem_replicate hpr])
      cases res1 with
      | error e1 =>
        refine ⟨.error e1, mainEntries (_get_full_image_path env ip) rg m1, [],
          by simp, hmemMain, ?_⟩
        intro hsafe hcontra
        obtain ⟨ob, hob⟩ := hsf1 (fun i _ => hsafe _)
        cases hob
      | ok ob =>
        cases ob with
        | none =>
          refine ⟨_handle_failure (_get_full_image_path env ip) fs,
            mainEntries (_get_full_image_path env ip) rg m1, [], by simp, hmemMain, ?_⟩
          intro _ hcontra
          unfold _handle_failure at hcontra
          split at hcontra <;> simp at hcontra
        | some location =>
          cases vi with
          | none =>
            refine ⟨.ok (some ((center location).1, (center location).2)),
              mainEntries (_get_full_image_path env ip) rg m1,
              [((center location).1 + xo, (center location).2 + yo)],
              by simp, hmemMain, ?_⟩
            intro _ hcontra
            cases hcontra
          | some v =>
            obtain ⟨res2, l2, cl2, heq2, hmem2⟩ :=
              handle_verification_shape env (_get_full_image_path env ip) v vt
                (center location).1 (center location).2 xo yo fs
                (St.mk (s.locs ++ mainEntries (_get_full_image_path env ip) rg m1)
                  (s.clicks ++ [((center location).1 + xo, (center location).2 + yo)]))
            refine ⟨res2, mainEntries (_get_full_image_path env ip) rg m1 ++ l2,
              [((center location).1 + xo, (center location).2 + yo)] ++ cl2, ?_, ?_, ?_⟩
            · dsimp only
              rw [heq2]
              simp
            · intro pr hpr
              rcases List.mem_append.mp hpr with hpr | hpr
              · exact hmemMain pr hpr
              · rcases hmem2 pr hpr with h | h
                · exact Or.inl h
                · exact Or.inr ⟨v, rfl, h⟩
            · intro hsafe hcontra
              rcases hcontra2 : res2 with e2 | r2
              · rw [hcontra2] at heq2 hcontra
                rcases handle_verification_no_other env
                    (_get_full_image_path env ip) v vt
                    (center location).1 (center location).2 xo yo fs
                    (St.mk (s.locs ++ mainEntries (_get_full_image_path env ip) rg m1)
                      (s.clicks ++ [((center location).1 + xo, (center location).2 + yo)]))
                    hsafe e2 _ heq2 with h | h | h <;>
                  (rw [h] at hcontra; simp at hcontra)
              · rw [hcontra2] at hcontra; cases hcontra
  cases wt with
  | none => exact main (0, 0, env.screenW, env.screenH)
  | some t =>
    cases henv : env.windows t with
    | nil =>
      refine ⟨.error (.windowNotFound t), [], [], ?_, ?_, ?_⟩
      · dsimp only [_get_target_window]
        rw [henv]
        simp [Except.map]
      · intro pr hpr; cases hpr
      · intro _ hcontra; simp at hcontra
    | cons w ws =>
      have h := main (w.left, w.top, w.width, w.height)
      dsimp only [_get_target_window]
      rw [henv]
      exact h

/-- A missing outcome yields no box. -/
theorem isFound_of_isMiss (o : LocOutcome) (h : isMiss o = true) :
    isFound o = false := by
  cases o <;> first
    | rfl
    | simp [isMiss] at h

/-- C1: in find_image_and_click, when a verification image is supplied,
the main image was found at first successful poll j, the first
verification misses on all its 2 * verify_timeout polls, the single retry
locate finds a box and the longer second verification raises no foreign
exception, then exactly one retry of the original locate+click happens:
the complete call log is the j + 1 main polls, the 2 * verify_timeout
first-verification polls, one re-locate of the template image, and up to
2 * (verify_timeout * 2) longer-wait verification polls (exactly that many
when the second verification also fails); the complete click log is the
original click plus exactly one retry click at the re-located center plus
the same offsets. No second retry occurs. -/
theorem C1_verify_failure_single_retry (env : Env) (ip : String)
    (timeout : Nat) (xo yo : Int) (fs : Bool) (wt : Option String)
    (v : String) (vt : Nat) (s : St) (j : Nat) (b b2 : Box)
    (hw : windowOkB env wt = true)
    (hex : env.pathExists (_get_full_image_path env ip) = true)
    (hj : j < timeout)
    (hbef : ∀ i, i < j → env.locate (s.locs.length + i) = .notFoundExc)
    (hfound : env.locate (s.locs.length + j) = .found b)
    (hv1 : ∀ i, i < 2 * vt →
      isMiss (env.locate (s.locs.length + (j + 1) + i)) = true)
    (hretry : env.locate (s.locs.length + (j + 1) + 2 * vt) = .found b2)
    (hsafe2 : ∀ i, i < 2 * (vt * 2) →
      env.locate (s.locs.length + (j + 1) + 2 * vt + 1 + i) ≠ .otherExc) :
    ∃ rg m, m ≤ 2 * (vt * 2) ∧
      (find_image_and_click env ip timeout xo yo fs wt (some v) vt s).snd =
        St.mk (s.locs ++ mainEntries (_get_full_image_path env ip) rg (j + 1)
            ++ verifyEntries (_get_full_image_path env v) (2 * vt)
            ++ [(_get_full_image_path env ip, none)]
            ++ verifyEntries (_get_full_image_path env v) m)
          (s.clicks ++ [((center b).1 + xo, (center b).2 + yo),
            ((center b2).1 + xo, (center b2).2 + yo)]) ∧
      ((∀ i, i < 2 * (vt * 2) →
          isMiss (env.locate (s.locs.length + (j + 1) + 2 * vt + 1 + i)) = true) →
        m = 2 * (vt * 2)) := by
  obtain ⟨rg, hbody⟩ := find_body_after_found env ip timeout xo yo fs wt
    (some v) vt s j b hw hex hj hbef hfound
  have hlen2 : (St.mk (s.locs ++ mainEntries (_get_full_image_path env ip) rg (j + 1))
      (s.clicks ++ [((center b).1 + xo, (center b).2 + yo)])).locs.length =
      s.locs.length + (j + 1) := by
    simp [mainEntries]
  obtain ⟨r, m, hm, hveq, hiff, hfull⟩ :=
    handle_verification_retry env (_get_full_image_path env ip) v vt
      (center b).1 (center b).2 xo yo fs
      (St.mk (s.locs ++ mainEntries (_get_full_image_path env ip) rg (j + 1))
        (s.clicks ++ [((center b).1 + xo, (center b).2 + yo)])) b2
      (by intro i hi; rw [hlen2]; exact hv1 i hi)
      (by rw [hlen2]; exact hretry)
      (by intro i hi; rw [hlen2]; exact hsafe2 i hi)
  rw [hlen2] at hiff
  refine ⟨rg, m, hm, ?_, ?_⟩
  · rw [show find_image_and_click env ip timeout xo yo fs wt (some v) vt s =
        wrapResult fs (find_image_and_click_body env ip timeout xo yo fs wt
          (some v) vt s) from rfl]
    rw [hbody]
    rw [wrapResult_snd]
    dsimp only
    rw [hveq]
    simp
  · intro hallmiss
    refine hfull ?_
    cases hr : r with
    | false => rfl
    | true =>
      obtain ⟨jj, hjj, hf⟩ := hiff.mp hr
      rw [isFound_of_isMiss _ (hallmiss jj hjj)] at hf
      cases hf

/-- Witness for C1: in the concrete retry world with verify_timeout 1,
the run performs exactly the two clicks (original and one retry, offsets
10 and 20) and exactly 8 locate calls: 1 main, 2 first verification, 1
retry, 4 longer-wait verification. -/
theorem C1_verify_failure_single_retry_witness :
    (find_image_and_click envRetry "a.png" 1 10 20 true none
        (some "v.png") 1 st0).snd.clicks = [(12, 24), (35, 60)] ∧
    (find_image_and_click envRetry "a.png" 1 10 20 true none
        (some "v.png") 1 st0).snd.locs.length = 8 := by
  obtain ⟨rg, m, hm, hsnd, href⟩ :=
    C1_verify_failure_single_retry envRetry "a.png" 1 10 20 true none
      "v.png" 1 st0 0 (Box.mk 1 2 3 4) (Box.mk 10 20 30 40)
      rfl rfl (by decide) (by decide) (by decide) (by decide) (by decide)
      (by decide)
  have hm4 : m = 2 * (1 * 2) := href (by decide)
  rw [hsnd, hm4]
  constructor
  · dsimp only
    decide
  · simp [mainEntries, verifyEntries, st0]

/-- A missing outcome is not the foreign-exception outcome. -/
theorem ne_otherExc_of_isMiss (o : LocOutcome) (h : isMiss o = true) :
    o ≠ .otherExc := by
  intro he
  subst he
  simp [isMiss] at h

/-- C2: the main locate step polls the external capability once per
second until the timeout elapses or a match is found: when the first
box-yielding poll is poll j within the timeout (the earlier polls raising
ImageNotFoundException), _locate_image returns exactly that match after
j + 1 logged polls; and when every one of the timeout polls raises, it
returns the absence marker None after exactly timeout logged polls, one
per second of the timeout. -/
theorem C2_locate_polls_once_per_second (env : Env) (full : String)
    (region : Region) (timeout : Nat) (s : St)
    (hex : env.pathExists full = true) :
    (∀ j b, j < timeout →
      (∀ i, i < j → env.locate (s.locs.length + i) = .notFoundExc) →
      env.locate (s.locs.length + j) = .found b →
      _locate_image env full region timeout s =
        (.ok (some b), St.mk (s.locs ++ mainEntries full region (j + 1)) s.clicks))
    ∧ ((∀ i, i < timeout → env.locate (s.locs.length + i) = .notFoundExc) →
      _locate_image env full region timeout s =
        (.ok none, St.mk (s.locs ++ mainEntries full region timeout) s.clicks)) := by
  have hred : _locate_image env full region timeout s =
      _locate_image_loop env full region timeout s := by
    unfold _locate_image
    rw [hex]
    rfl
  constructor
  · intro j b hj hbef hfound
    rw [hred]
    exact locate_loop_found env full region b timeout j s hj hbef hfound
  · intro hmiss
    rw [hred]
    exact locate_loop_all_miss env full region timeout s hmiss

/-- Witness for C2: with the match appearing at the second poll of a
3-second timeout, _locate_image returns that box after exactly two
logged polls. -/
theorem C2_locate_polls_once_per_second_witness :
    _locate_image envFound1 "/d/pics/a.png" (0, 0, 1920, 1080) 3 st0 =
      (.ok (some (Box.mk 1 2 3 4)),
       St.mk (st0.locs ++ mainEntries "/d/pics/a.png" (0, 0, 1920, 1080) 2)
         st0.clicks) :=
  (C2_locate_polls_once_per_second envFound1 "/d/pics/a.png"
    (0, 0, 1920, 1080) 3 st0 rfl).1 1 (Box.mk 1 2 3 4)
    (by decide) (by decide) (by decide)

/-- C3: when the main image is not found before the timeout elapses
(every poll misses), find_image_and_click raises the timeout RuntimeError
when fail_silently is false and returns the sentinel None when
fail_silently is true. -/
theorem C3_timeout_raises_or_sentinel (env : Env) (ip : String)
    (timeout : Nat) (xo yo : Int) (fs : Bool) (wt : Option String)
    (vi : Option String) (vt : Nat) (s : St)
    (hw : windowOkB env wt = true)
    (hex : env.pathExists (_get_full_image_path env ip) = true)
    (hmiss : ∀ i, i < timeout → isMiss (env.locate (s.locs.length + i)) = true) :
    (fs = false → ∃ s', find_image_and_click env ip timeout xo yo fs wt vi vt s =
      (.error (.timeoutErr (_get_full_image_path env ip)), s'))
    ∧ (fs = true → ∃ s', find_image_and_click env ip timeout xo yo fs wt vi vt s =
      (.ok none, s')) := by
  obtain ⟨m, hm, rg, hbody⟩ :=
    find_body_miss env ip timeout xo yo fs wt vi vt s hw hex hmiss
  have hfind : find_image_and_click env ip timeout xo yo fs wt vi vt s =
      wrapResult fs (_handle_failure (_get_full_image_path env ip) fs,
        St.mk (s.locs ++ mainEntries (_get_full_image_path env ip) rg m)
          s.clicks) := by
    rw [show find_image_and_click env ip timeout xo yo fs wt vi vt s =
        wrapResult fs (find_image_and_click_body env ip timeout xo yo fs wt
          vi vt s) from rfl]
    rw [hbody]
  constructor
  · intro hfs
    subst hfs
    refine ⟨St.mk (s.locs ++ mainEntries (_get_full_image_path env ip) rg m)
      s.clicks, ?_⟩
    rw [hfind]
    rfl
  · intro hfs
    subst hfs
    refine ⟨St.mk (s.locs ++ mainEntries (_get_full_image_path env ip) rg m)
      s.clicks, ?_⟩
    rw [hfind]
    rfl

/-- Witness for C3: in the all-miss world with fail_silently false, the
call raises the timeout error for the resolved path. -/
theorem C3_timeout_raises_or_sentinel_witness :
    (find_image_and_click envAllMiss "a.png" 2 0 0 false none none 3 st0).fst =
      .error (.timeoutErr (_get_full_image_path envAllMiss "a.png")) := by
  obtain ⟨s', h⟩ := (C3_timeout_raises_or_sentinel envAllMiss "a.png" 2 0 0
    false none none 3 st0 rfl rfl (by decide)).1 rfl
  rw [h]

/-- Counterexample to C4 as stated: with the image file missing on disk,
find_image_and_click with fail_silently false raises FileNotFoundError,
a failure kind that is neither image-not-found-within-timeout nor
window-not-found, so those two are not the only failure kinds. -/
theorem C4_counterexample :
    (find_image_and_click envNoFile "a.png" 1 0 0 false none none 3 st0).fst =
      .error (.fileNotFound (_get_full_image_path envNoFile "a.png")) ∧
    (match (find_image_and_click envNoFile "a.png" 1 0 0 false none none 3 st0).fst with
     | .error (.timeoutErr _) => True
     | .error (.windowNotFound _) => True
     | _ => False) = False := by
  exact ⟨rfl, rfl⟩

/-- C4 amended: the failure kinds of find_image_and_click are image not
found within timeout, window not found, image file missing on disk,
second verification failure, failure to re-locate the original image
during the retry, and the ImageNotFoundException propagating from the
unguarded retry locate; assuming the external locate calls raise only
ImageNotFoundException, every exception escapes only when fail_silently
is false and is one of those kinds (never the catch-all), and with
fail_silently true the call always returns ok. -/
theorem C4_failure_kinds (env : Env) (ip : String) (timeout : Nat)
    (xo yo : Int) (fs : Bool) (wt : Option String) (vi : Option String)
    (vt : Nat) (s : St)
    (hsafe : ∀ k, env.locate k ≠ .otherExc) :
    (fs = true → ∃ r s', find_image_and_click env ip timeout xo yo fs wt vi vt s =
      (.ok r, s'))
    ∧ (∀ e s', find_image_and_click env ip timeout xo yo fs wt vi vt s =
        (.error e, s') → fs = false ∧ e ≠ .otherError) := by
  obtain ⟨res, l, cl, hbody, hmem, herr⟩ :=
    find_body_master env ip timeout xo yo fs wt vi vt s
  have hfind : find_image_and_click env ip timeout xo yo fs wt vi vt s =
      wrapResult fs (res, St.mk (s.locs ++ l) (s.clicks ++ cl)) := by
    rw [show find_image_and_click env ip timeout xo yo fs wt vi vt s =
        wrapResult fs (find_image_and_click_body env ip timeout xo yo fs wt
          vi vt s) from rfl]
    rw [hbody]
  constructor
  · intro hfs
    subst hfs
    rw [hfind]
    cases res with
    | ok r => exact ⟨r, St.mk (s.locs ++ l) (s.clicks ++ cl), rfl⟩
    | error e => exact ⟨none, St.mk (s.locs ++ l) (s.clicks ++ cl), rfl⟩
  · intro e s' h
    rw [hfind] at h
    obtain ⟨hfs, hp⟩ := wrapResult_error_inv fs _ e s' h
    refine ⟨hfs, ?_⟩
    intro hcontra
    subst hcontra
    have hres : res = .error .otherError := (Prod.mk.injEq _ _ _ _).mp hp |>.1
    exact herr hsafe hres

/-- Witness for C4 amended: in a world whose locate calls only raise
ImageNotFoundException, the silent call returns ok. -/
theorem C4_failure_kinds_witness :
    (find_image_and_click envAllMiss "a.png" 1 0 0 true none none 3 st0).fst.isOk
      = true := by
  obtain ⟨r, s', h⟩ := (C4_failure_kinds envAllMiss "a.png" 1 0 0 true none
    none 3 st0 (fun k h => by simp [envAllMiss] at h)).1 rfl
  rw [h]
  rfl

/-- Counterexample to C5 as stated: in envFound0 the main image is found
at the very first poll, with match center (2, 4), yet with a verification
image supplied whose verification fails and whose unguarded retry locate
raises, the silent call returns None, not the match-center coordinates. -/
theorem C5_counterexample :
    (find_image_and_click envFound0 "a.png" 1 10 20 true none
        (some "v.png") 1 st0).fst = .ok none ∧
    (find_image_and_click envFound0 "a.png" 1 10 20 true none
        (some "v.png") 1 st0).fst ≠
      .ok (some ((center (Box.mk 1 2 3 4)).1, (center (Box.mk 1 2 3 4)).2)) := by
  have h0 : (find_image_and_click envFound0 "a.png" 1 10 20 true none
      (some "v.png") 1 st0).fst = .ok none := rfl
  refine ⟨h0, ?_⟩
  intro h
  rw [h0] at h
  simp at h

/-- C5 amended: whenever the main image is found within the timeout (at
first successful poll j), find_image_and_click clicks at the match center
plus the x/y offsets (its first click); with no verification image it
returns exactly the match-center coordinates after that single click, and
in every case any ok coordinate result it returns equals the match
center, so the returned coordinates are the expected ones whenever no
verification image is supplied or verification ultimately succeeds. -/
theorem C5_click_offset_and_center_result (env : Env) (ip : String)
    (timeout : Nat) (xo yo : Int) (fs : Bool) (wt : Option String)
    (vi : Option String) (vt : Nat) (s : St) (j : Nat) (b : Box)
    (hw : windowOkB env wt = true)
    (hex : env.pathExists (_get_full_image_path env ip) = true)
    (hj : j < timeout)
    (hbef : ∀ i, i < j → env.locate (s.locs.length + i) = .notFoundExc)
    (hfound : env.locate (s.locs.length + j) = .found b) :
    (∃ rest, (find_image_and_click env ip timeout xo yo fs wt vi vt s).snd.clicks =
      s.clicks ++ ((center b).1 + xo, (center b).2 + yo) :: rest)
    ∧ (vi = none → ∃ rg, find_image_and_click env ip timeout xo yo fs wt vi vt s =
      (.ok (some ((center b).1, (center b).2)),
       St.mk (s.locs ++ mainEntries (_get_full_image_path env ip) rg (j + 1))
         (s.clicks ++ [((center b).1 + xo, (center b).2 + yo)])))
    ∧ (∀ p s', find_image_and_click env ip timeout xo yo fs wt vi vt s =
      (.ok (some p), s') → p = ((center b).1, (center b).2)) := by
  obtain ⟨rg, hbody⟩ := find_body_after_found env ip timeout xo yo fs wt
    vi vt s j b hw hex hj hbef hfound
  refine ⟨?_, ?_, ?_⟩
  · cases vi with
    | none =>
      refine ⟨[], ?_⟩
      rw [show find_image_and_click env ip timeout xo yo fs wt none vt s =
          wrapResult fs (find_image_and_click_body env ip timeout xo yo fs wt
            none vt s) from rfl]
      rw [hbody]
      rw [wrapResult_ok]
    | some v =>
      obtain ⟨res2, l2, cl2, heq2, _⟩ :=
        handle_verification_shape env (_get_full_image_path env ip) v vt
          (center b).1 (center b).2 xo yo fs
          (St.mk (s.locs ++ mainEntries (_get_full_image_path env ip) rg (j + 1))
            (s.clicks ++ [((center b).1 + xo, (center b).2 + yo)]))
      refine ⟨cl2, ?_⟩
      rw [show find_image_and_click env ip timeout xo yo fs wt (some v) vt s =
          wrapResult fs (find_image_and_click_body env ip timeout xo yo fs wt
            (some v) vt s) from rfl]
      rw [hbody]
      rw [wrapResult_snd]
      dsimp only
      rw [heq2]
      simp
  · intro hvi
    subst hvi
    refine ⟨rg, ?_⟩
    rw [show find_image_and_click env ip timeout xo yo fs wt none vt s =
        wrapResult fs (find_image_and_click_body env ip timeout xo yo fs wt
          none vt s) from rfl]
    rw [hbody]
    rfl
  · intro p s' h
    rw [show find_image_and_click env ip timeout xo yo fs wt vi vt s =
        wrapResult fs (find_image_and_click_body env ip timeout xo yo fs wt
          vi vt s) from rfl] at h
    have hb := wrapResult_ok_some fs _ p s' h
    rw [hbody] at hb
    cases vi with
    | none =>
      dsimp only at hb
      simp only [Prod.mk.injEq, Except.ok.injEq, Option.some.injEq] at hb
      exact hb.1.symm
    | some v =>
      dsimp only at hb
      exact handle_verification_ok_some env (_get_full_image_path env ip) v vt
        (center b).1 (center b).2 xo yo fs _ p s' hb

/-- Witness for C5 amended: with no verification image, the call in
envFound0 clicks at (2 + 10, 4 + 20) and returns the center (2, 4). -/
theorem C5_click_offset_and_center_result_witness :
    (find_image_and_click envFound0 "a.png" 1 10 20 true none none 1 st0).snd.clicks
      = [(12, 24)] ∧
    (find_image_and_click envFound0 "a.png" 1 10 20 true none none 1 st0).fst
      = .ok (some (2, 4)) := by
  obtain ⟨hclick, hnone, hok⟩ := C5_click_offset_and_center_result envFound0
    "a.png" 1 10 20 true none none 1 st0 0 (Box.mk 1 2 3 4)
    rfl rfl (by decide) (by decide) (by decide)
  obtain ⟨rg, heq⟩ := hnone rfl
  constructor
  · rw [heq]
    dsimp only
    decide
  · rw [heq]
    rfl

/-- C6: verify_image_displayed polls for the verification image at
half-second intervals for its own timeout (at most 2 * timeout polls, and
all of them when it answers False) and always returns a boolean: True
exactly when some poll within the timeout finds the image, False when the
timeout elapses without locating it; assuming no poll raises a foreign
exception. -/
theorem C6_verify_image_displayed_boolean (env : Env) (ip : String)
    (timeout : Nat) (s : St)
    (hsafe : ∀ i, i < 2 * timeout → env.locate (s.locs.length + i) ≠ .otherExc) :
    ∃ (r : Bool) (m : Nat), m ≤ 2 * timeout ∧
      verify_image_displayed env ip timeout s =
        (.ok r, St.mk (s.locs ++ verifyEntries (_get_full_image_path env ip) m)
          s.clicks) ∧
      (r = true ↔ ∃ j, j < 2 * timeout ∧
        isFound (env.locate (s.locs.length + j)) = true) ∧
      (r = false → m = 2 * timeout) :=
  verify_loop_master env (_get_full_image_path env ip) (2 * timeout) s hsafe

/-- Witness for C6: with the verification image appearing at the second
half-second poll of a 2-second timeout, verify_image_displayed returns
True. -/
theorem C6_verify_image_displayed_boolean_witness :
    (verify_image_displayed envFound1 "v.png" 2 st0).fst = .ok true := by
  obtain ⟨r, m, hm, heq, hiff, hfull⟩ :=
    C6_verify_image_displayed_boolean envFound1 "v.png" 2 st0 (by decide)
  have hr : r = true := hiff.mpr ⟨1, by decide, by decide⟩
  rw [heq, hr]

/-- C7: when the longer second verification after the retry also fails
(all its polls miss), find_image_and_click fails like a primary failure:
it raises the second-verification RuntimeError when fail_silently is
false and returns None when fail_silently is true. -/
theorem C7_second_verify_failure_per_flag (env : Env) (ip : String)
    (timeout : Nat) (xo yo : Int) (fs : Bool) (wt : Option String)
    (v : String) (vt : Nat) (s : St) (j : Nat) (b b2 : Box)
    (hw : windowOkB env wt = true)
    (hex : env.pathExists (_get_full_image_path env ip) = true)
    (hj : j < timeout)
    (hbef : ∀ i, i < j → env.locate (s.locs.length + i) = .notFoundExc)
    (hfound : env.locate (s.locs.length + j) = .found b)
    (hv1 : ∀ i, i < 2 * vt →
      isMiss (env.locate (s.locs.length + (j + 1) + i)) = true)
    (hretry : env.locate (s.locs.length + (j + 1) + 2 * vt) = .found b2)
    (hv2miss : ∀ i, i < 2 * (vt * 2) →
      isMiss (env.locate (s.locs.length + (j + 1) + 2 * vt + 1 + i)) = true) :
    (find_image_and_click env ip timeout xo yo fs wt (some v) vt s).fst =
      if fs then .ok none else .error (.verifyFailed v) := by
  obtain ⟨rg, hbody⟩ := find_body_after_found env ip timeout xo yo fs wt
    (some v) vt s j b hw hex hj hbef hfound
  have hlen2 : (St.mk (s.locs ++ mainEntries (_get_full_image_path env ip) rg (j + 1))
      (s.clicks ++ [((center b).1 + xo, (center b).2 + yo)])).locs.length =
      s.locs.length + (j + 1) := by
    simp [mainEntries]
  obtain ⟨r, m, hm, hveq, hiff, hfull⟩ :=
    handle_verification_retry env (_get_full_image_path env ip) v vt
      (center b).1 (center b).2 xo yo fs
      (St.mk (s.locs ++ mainEntries (_get_full_image_path env ip) rg (j + 1))
        (s.clicks ++ [((center b).1 + xo, (center b).2 + yo)])) b2
      (by intro i hi; rw [hlen2]; exact hv1 i hi)
      (by rw [hlen2]; exact hretry)
      (by intro i hi; rw [hlen2]; exact ne_otherExc_of_isMiss _ (hv2miss i hi))
  rw [hlen2] at hiff
  have hr : r = false := by
    cases hr2 : r with
    | false => rfl
    | true =>
      obtain ⟨jj, hjj, hf⟩ := hiff.mp hr2
      rw [isFound_of_isMiss _ (hv2miss jj hjj)] at hf
      cases hf
  rw [show find_image_and_click env ip timeout xo yo fs wt (some v) vt s =
      wrapResult fs (find_image_and_click_body env ip timeout xo yo fs wt
        (some v) vt s) from rfl]
  rw [hbody]
  dsimp only
  rw [hveq, hr]
  cases fs <;> rfl

/-- Witness for C7: in the concrete retry world with fail_silently false,
the call raises the second-verification error. -/
theorem C7_second_verify_failure_per_flag_witness :
    (find_image_and_click envRetry "a.png" 1 10 20 false none
        (some "v.png") 1 st0).fst = .error (.verifyFailed "v.png") := by
  have h := C7_second_verify_failure_per_flag envRetry "a.png" 1 10 20 false
    none "v.png" 1 st0 0 (Box.mk 1 2 3 4) (Box.mk 10 20 30 40)
    rfl rfl (by decide) (by decide) (by decide) (by decide) (by decide)
    (by decide)
  rw [h]
  rfl

/-- C8: with fail_silently true, find_image_and_click never raises: for
every environment, arguments and starting state, its result is an ok
value, every modelled exception from window lookup, path checks, locate
calls, clicks or verification having been swallowed into None by the
except Exception clause. -/
theorem C8_fail_silently_never_raises (env : Env) (ip : String)
    (timeout : Nat) (xo yo : Int) (wt : Option String) (vi : Option String)
    (vt : Nat) (s : St) :
    ∃ r s', find_image_and_click env ip timeout xo yo true wt vi vt s =
      (.ok r, s') := by
  rw [show find_image_and_click env ip timeout xo yo true wt vi vt s =
      wrapResult true (find_image_and_click_body env ip timeout xo yo true wt
        vi vt s) from rfl]
  obtain ⟨res, s'⟩ := find_image_and_click_body env ip timeout xo yo true wt
    vi vt s
  cases res with
  | ok r => exact ⟨r, s', rfl⟩
  | error e => exact ⟨none, s', rfl⟩

/-- C9: when verification succeeds only after the retry (first
verification misses every poll, the retry re-locates a box b2 and some
poll of the longer second verification finds the image), the call still
returns the coordinates of the original match center, independent of the
re-located box b2 where the retry click was performed. -/
theorem C9_returns_original_center (env : Env) (ip : String)
    (timeout : Nat) (xo yo : Int) (fs : Bool) (wt : Option String)
    (v : String) (vt : Nat) (s : St) (j : Nat) (b b2 : Box)
    (hw : windowOkB env wt = true)
    (hex : env.pathExists (_get_full_image_path env ip) = true)
    (hj : j < timeout)
    (hbef : ∀ i, i < j → env.locate (s.locs.length + i) = .notFoundExc)
    (hfound : env.locate (s.locs.length + j) = .found b)
    (hv1 : ∀ i, i < 2 * vt →
      isMiss (env.locate (s.locs.length + (j + 1) + i)) = true)
    (hretry : env.locate (s.locs.length + (j + 1) + 2 * vt) = .found b2)
    (hsafe2 : ∀ i, i < 2 * (vt * 2) →
      env.locate (s.locs.length + (j + 1) + 2 * vt + 1 + i) ≠ .otherExc)
    (hv2found : ∃ jj, jj < 2 * (vt * 2) ∧
      isFound (env.locate (s.locs.length + (j + 1) + 2 * vt + 1 + jj)) = true) :
    (find_image_and_click env ip timeout xo yo fs wt (some v) vt s).fst =
      .ok (some ((center b).1, (center b).2)) := by
  obtain ⟨rg, hbody⟩ := find_body_after_found env ip timeout xo yo fs wt
    (some v) vt s j b hw hex hj hbef hfound
  have hlen2 : (St.mk (s.locs ++ mainEntries (_get_full_image_path env ip) rg (j + 1))
      (s.clicks ++ [((center b).1 + xo, (center b).2 + yo)])).locs.length =
      s.locs.length + (j + 1) := by
    simp [mainEntries]
  obtain ⟨r, m, hm, hveq, hiff, hfull⟩ :=
    handle_verification_retry env (_get_full_image_path env ip) v vt
      (center b).1 (center b).2 xo yo fs
      (St.mk (s.locs ++ mainEntries (_get_full_image_path env ip) rg (j + 1))
        (s.clicks ++ [((center b).1 + xo, (center b).2 + yo)])) b2
      (by intro i hi; rw [hlen2]; exact hv1 i hi)
      (by rw [hlen2]; exact hretry)
      (by intro i hi; rw [hlen2]; exact hsafe2 i hi)
  rw [hlen2] at hiff
  have hr : r = true := hiff.mpr hv2found
  rw [show find_image_and_click env ip timeout xo yo fs wt (some v) vt s =
      wrapResult fs (find_image_and_click_body env ip timeout xo yo fs wt
        (some v) vt s) from rfl]
  rw [hbody]
  dsimp only
  rw [hveq, hr]
  rfl

/-- Witness for C9: in the concrete world where verification succeeds
only after the retry, the call returns the original center (2, 4), which
differs from the retry center (25, 40). -/
theorem C9_returns_original_center_witness :
    (find_image_and_click envRetryVerified "a.png" 1 10 20 true none
        (some "v.png") 1 st0).fst =
      .ok (some ((center (Box.mk 1 2 3 4)).1, (center (Box.mk 1 2 3 4)).2)) ∧
    center (Box.mk 10 20 30 40) ≠ center (Box.mk 1 2 3 4) := by
  refine ⟨?_, by decide⟩
  exact C9_returns_original_center envRetryVerified "a.png" 1 10 20 true none
    "v.png" 1 st0 0 (Box.mk 1 2 3 4) (Box.mk 10 20 30 40)
    rfl rfl (by decide) (by decide) (by decide) (by decide) (by decide)
    (by decide) ⟨0, by decide, by decide⟩

/-- C10: both entry points resolve image-path arguments identically with
_get_full_image_path, the pics directory next to the script joined with
the argument after stripping leading and trailing U+202A characters; and
that resolved path is the path actually used: every locateOnScreen call
logged during find_image_and_click carries the resolution of the main
image argument or of the verification image argument, and every call
logged during verify_image_displayed carries the resolution of its
argument. -/
theorem C10_pics_path_resolution (env : Env) (ip : String) (timeout : Nat)
    (xo yo : Int) (fs : Bool) (wt : Option String) (vi : Option String)
    (vt : Nat) (s : St) (ip2 : String) (t2 : Nat) :
    (_get_full_image_path env ip =
      osPathJoin (osPathJoin env.scriptDir "pics") (stripChar lreChar ip))
    ∧ (∃ l cl, (find_image_and_click env ip timeout xo yo fs wt vi vt s).snd =
        St.mk (s.locs ++ l) (s.clicks ++ cl) ∧
        ∀ pr, pr ∈ l → pr.1 = _get_full_image_path env ip ∨
          ∃ v, vi = some v ∧ pr.1 = _get_full_image_path env v)
    ∧ (∃ res m, verify_image_displayed env ip2 t2 s =
        (res, St.mk (s.locs ++ verifyEntries (_get_full_image_path env ip2) m)
          s.clicks)) := by
  refine ⟨rfl, ?_, ?_⟩
  · obtain ⟨res, l, cl, hbody, hmem, _⟩ :=
      find_body_master env ip timeout xo yo fs wt vi vt s
    refine ⟨l, cl, ?_, hmem⟩
    rw [show find_image_and_click env ip timeout xo yo fs wt vi vt s =
        wrapResult fs (find_image_and_click_body env ip timeout xo yo fs wt
          vi vt s) from rfl]
    rw [hbody, wrapResult_snd]
  · obtain ⟨res, m, _, heq, _⟩ :=
      verify_loop_shape env (_get_full_image_path env ip2) (2 * t2) s
    exact ⟨res, m, heq⟩

end PyAutoClick
